import Mathlib

/-!
Shallow embedding of the GoalMate progress / leveling / streak engine
(src/index.tsx) and proofs about the spec's claims over it.

Dates are opaque strings (the source compares them with `===` only);
"today" is passed explicitly where the source calls `getTodaysDateString()`.
JS numbers carrying experience are modelled as `Int`; the fractional
progress computation of the Progress Projector is modelled over `Rat`.
-/

namespace GoalMate

/-- Embeds `LEVEL_THRESHOLDS = { 1: 0, 2: 100, 3: 250, 4: 500, 5: 1000 }`
(src/index.tsx line 48); `none` models an absent key. -/
def LEVEL_THRESHOLDS : Nat → Option Int
  | 1 => some 0
  | 2 => some 100
  | 3 => some 250
  | 4 => some 500
  | 5 => some 1000
  | _ => none

/-- Embeds an entry of the `UNLOCKABLES` table (src/index.tsx lines 49-54). -/
structure Unlockable where
  name : String
  xpRequired : Int
  id : String
deriving DecidableEq, Repr

/-- Embeds the static `UNLOCKABLES` table (src/index.tsx lines 49-54). -/
def UNLOCKABLES : List Unlockable :=
  [⟨"Dark Mode Theme", 100, "dark_mode"⟩,
   ⟨"Buddy Insight Stats", 200, "buddy_stats"⟩,
   ⟨"Custom Goal Categories", 300, "custom_categories"⟩,
   ⟨"Community Quests", 500, "community_quests"⟩]

/-- Embeds an entry `{ date, xp }` of `mockXpLog`. -/
structure XpEntry where
  date : String
  xp : Int
deriving DecidableEq, Repr

/-- Embeds the fields of `mockUserProfile` touched by `awardXp`
(src/index.tsx lines 35-46): `xp`, `level`, `unlockedPerks`.  The perk
list holds whole `Unlockable` records, as the source pushes the table
entry itself. -/
structure UserProfileState where
  xp : Int
  level : Nat
  unlockedPerks : List Unlockable
deriving DecidableEq, Repr

/-- The state read and written by `awardXp`: the user profile plus the
`mockXpLog` list. -/
structure LedgerState where
  profile : UserProfileState
  xpLog : List XpEntry
deriving DecidableEq, Repr

/-- Embeds the XP-log update of `awardXp` (src/index.tsx lines 87-92):
`findIndex` on today's date, overwrite the first matching entry's `xp`,
otherwise `push` a fresh entry at the end. -/
def updateXpLog (today : String) (newXp : Int) : List XpEntry → List XpEntry
  | [] => [⟨today, newXp⟩]
  | e :: rest =>
    if e.date = today then ⟨e.date, newXp⟩ :: rest
    else e :: updateXpLog today newXp rest

/-- Embeds `awardXp` (src/index.tsx lines 80-112).  Early return on
`amount === 0`; `xp += amount`; append-or-merge today's XP-log entry and
`shift()` when the log exceeds 60 entries; a single level-up step guarded
by the *truthiness* of `LEVEL_THRESHOLDS[nextLevel]` (so a zero threshold
never triggers, as `0` is falsy in JS); perk unlocks folded over the
`UNLOCKABLES` table in order. -/
def awardXp (today : String) (amount : Int) (s : LedgerState) : LedgerState :=
  if amount = 0 then s
  else
    let newXp := s.profile.xp + amount
    let log1 := updateXpLog today newXp s.xpLog
    let log2 := if log1.length > 60 then log1.drop 1 else log1
    let newLevel :=
      match LEVEL_THRESHOLDS (s.profile.level + 1) with
      | some t => if t ≠ 0 ∧ t ≤ newXp then s.profile.level + 1 else s.profile.level
      | none => s.profile.level
    let newPerks := UNLOCKABLES.foldl
      (fun acc u =>
        if u.xpRequired ≤ newXp ∧ ¬ acc.any (fun p => p.id = u.id) then acc ++ [u]
        else acc)
      s.profile.unlockedPerks
    ⟨⟨newXp, newLevel, newPerks⟩, log2⟩

/-- Modelled from the spec's invariant wording: the largest level `L` in
the fixed threshold table with `threshold(L) <= experience`.  Used only to
*state* claims about `awardXp`; the executable authority is `awardXp`
itself. -/
def largestLevelFor (xp : Int) : Nat :=
  [1, 2, 3, 4, 5].foldl
    (fun acc L =>
      match LEVEL_THRESHOLDS L with
      | some t => if t ≤ xp then L else acc
      | none => acc) 1

/-- Embeds a module record `{ id, name, status, verified, source }`
(statuses are the source's string literals `"pending"` / `"completed"`). -/
structure Module where
  id : String
  name : String
  status : String
  verified : Bool
  source : String
deriving DecidableEq, Repr

/-- Embeds the goal fields read by `calculateOverallProgressDisplay` and
by the quest fallback: `type`, `modules` (absent on non-Learning goals),
`progressPercent`, `statusText`, `title`. -/
structure Goal where
  id : String
  title : String
  gtype : String
  modules : Option (List Module)
  progressPercent : Option Int
  statusText : Option String
deriving DecidableEq, Repr

/-- `Math.round` on an exact rational: round half toward positive
infinity, the ECMAScript rounding rule. -/
def jsRound (q : ℚ) : ℤ := ⌊q + 1 / 2⌋

/-- Embeds `calculateOverallProgressDisplay` (src/index.tsx lines 10-30).
The `Option Goal` input models the `!goal` null guard; the Learning
branch fires when `type === 'Learning'` and `modules` is present (a JS
array, even empty, is truthy); the generic branch applies the source's
`||` fallbacks, where an empty `statusText` string is falsy. -/
def calculateOverallProgressDisplay (goalOpt : Option Goal) : Int × String :=
  match goalOpt with
  | none => (0, "N/A")
  | some goal =>
    if goal.gtype = "Learning" ∧ goal.modules.isSome then
      let ms := goal.modules.getD []
      let totalModules := ms.length
      if totalModules = 0 then (0, "No modules")
      else
        let verifiedCount := (ms.filter (fun m => m.verified)).length
        let completedNotVerifiedCount :=
          (ms.filter (fun m => m.status == "completed" && !m.verified)).length
        let effectiveProgressValue : ℚ :=
          (verifiedCount : ℚ) + (completedNotVerifiedCount : ℚ) * (1 / 2)
        let percent := jsRound (effectiveProgressValue / (totalModules : ℚ) * 100)
        (percent,
         toString verifiedCount ++ " Verified, " ++ toString completedNotVerifiedCount
           ++ " Self-Completed / " ++ toString totalModules ++ " Total Modules")
    else
      (goal.progressPercent.getD 0,
       match goal.statusText with
       | some st =>
         if st = "" then
           if goal.progressPercent = some 100 then "Completed!" else "Not started"
         else st
       | none =>
         if goal.progressPercent = some 100 then "Completed!" else "Not started")

/-- Embeds `handleModuleVerified` (src/index.tsx lines 1363-1369) acting
on the goal's module list: the module matching the id becomes
`{ status: 'completed', verified: true }`. -/
def handleModuleVerified (moduleId : String) (ms : List Module) : List Module :=
  ms.map (fun m =>
    if m.id = moduleId then { m with status := "completed", verified := true } else m)

/-- Embeds `handleModuleSelfCompleted` (src/index.tsx lines 1371-1377):
the module matching the id becomes `{ status: 'completed', verified: false }`. -/
def handleModuleSelfCompleted (moduleId : String) (ms : List Module) : List Module :=
  ms.map (fun m =>
    if m.id = moduleId then { m with status := "completed", verified := false } else m)

/-- The render-layer gate on module actions (src/index.tsx lines
1471-1486): the self-complete button and the verification modal are
offered only for a `pending` module, and the re-verify modal only for a
`completed` unverified one.  The source consults this gate only when an
action is *initiated*; the handlers themselves run later (from the
modal's `setTimeout` callbacks) without re-checking it. -/
def moduleActionOffered (m : Module) : Bool :=
  m.status == "pending" || (m.status == "completed" && !m.verified)

/-- A user-reachable module operation: self-completion or AI verification
of the module with the given id (both also reachable from inside the
verification modal). -/
inductive ModuleOp where
  | selfComplete (moduleId : String)
  | verify (moduleId : String)
deriving DecidableEq, Repr

/-- Applies a module operation the way the source applies it: the modal
fires the handler from a delayed `setTimeout` callback (src/index.tsx
lines 1210-1213 and 1230-1233) with no re-check of the render-layer
offer, so the update is unconditional on the state at application time. -/
def applyModuleOp (ms : List Module) (op : ModuleOp) : List Module :=
  match op with
  | .selfComplete mid => handleModuleSelfCompleted mid ms
  | .verify mid => handleModuleVerified mid ms

/-- A whole user session of module operations, applied in order. -/
def runModuleOps (ms : List Module) (ops : List ModuleOp) : List Module :=
  ops.foldl applyModuleOp ms

/-- Suffix of `hay` after the first occurrence of `pat`, scanning left to
right; `none` when `pat` does not occur.  This is the `String.match`
success/capture structure of a regex `Label: (.*)` restricted to one
line. -/
def charsAfterFirst (pat : List Char) : List Char → Option (List Char)
  | [] => if pat = [] then some [] else none
  | c :: cs =>
    if pat.isPrefixOf (c :: cs) then some ((c :: cs).drop pat.length)
    else charsAfterFirst pat cs

/-- Splits a character list on newline characters, keeping empty lines. -/
def splitOnNL : List Char → List (List Char)
  | [] => [[]]
  | c :: rest =>
    match splitOnNL rest with
    | [] => [[]]
    | l :: ls => if c = '\n' then [] :: l :: ls else (c :: l) :: ls

/-- Embeds `text.match(/Label(.*)/)`: since the label contains no newline
and `.` does not match newlines, the first regex match is the first line
containing the label, and the capture is the rest of that line after the
label's first occurrence there. -/
def questLabelMatch (label : String) (text : String) : Option (List Char) :=
  (splitOnNL text.data).findSome? (fun line => charsAfterFirst label.data line)

/-- JS `String.prototype.trim`: drop whitespace from both ends. -/
def trimChars (cs : List Char) : List Char :=
  ((cs.dropWhile Char.isWhitespace).reverse.dropWhile Char.isWhitespace).reverse

/-- JS `toLowerCase`, character by character. -/
def lowerChars (cs : List Char) : List Char := cs.map Char.toLower

/-- JS `hay.includes(pat)`. -/
def jsIncludes (hay pat : List Char) : Bool := (charsAfterFirst pat hay).isSome

/-- The structured quest record returned by `getWeeklyQuest`. -/
structure QuestRecord where
  title : String
  description : String
  relatedGoal : String
deriving DecidableEq, Repr

/-- Embeds the parsing step of `getWeeklyQuest` (src/index.tsx lines
1057-1071): three regex extractions `Quest Title: (.*)`,
`Description: (.*)`, `Related Goal: (.*)`; when all succeed the captures
are returned trimmed, otherwise the fallback scans the caller-supplied
goals for a title occurring case-insensitively in the text. -/
def parseQuestResponse (text : String) (userGoals : List Goal) : QuestRecord :=
  let titleMatch := questLabelMatch "Quest Title: " text
  let descriptionMatch := questLabelMatch "Description: " text
  let relatedGoalMatch := questLabelMatch "Related Goal: " text
  match titleMatch, descriptionMatch, relatedGoalMatch with
  | some t, some d, some g =>
    ⟨String.mk (trimChars t), String.mk (trimChars d), String.mk (trimChars g)⟩
  | _, _, _ =>
    let foundGoal := userGoals.find?
      (fun g => jsIncludes (lowerChars text.data) (lowerChars g.title.data))
    ⟨"Weekly Quest Suggestion", text,
     match foundGoal with
     | some g => g.title
     | none => "General"⟩

/-- Embeds `streakFreezes: { remaining, total }`. -/
structure StreakFreezes where
  remaining : Nat
  total : Nat
deriving DecidableEq, Repr

/-- Embeds the `proof` object of a check-in log entry. -/
structure CheckInProof where
  ptype : String
  value : Option String
  comment : Option String
deriving DecidableEq, Repr

/-- Embeds a `logs` entry `{ date, status, proof }` of a habit tracker. -/
structure CheckInLog where
  date : String
  status : String
  proof : CheckInProof
deriving DecidableEq, Repr

/-- Embeds the tracker fields read and written by `handleCheckIn` and
`handleUseStreakFreeze` (display-only fields such as `emoji` and `color`
are omitted; no modelled operation touches them). -/
structure Tracker where
  id : String
  name : String
  currentStreak : Nat
  longestStreak : Nat
  streakFreezes : StreakFreezes
  logs : List CheckInLog
deriving DecidableEq, Repr

/-- Embeds an entry `{ date, count }` of `mockCheckinsLog`. -/
structure CheckinsEntry where
  date : String
  count : Nat
deriving DecidableEq, Repr

/-- The state touched by the Daily Tracker operations: the leveling
ledger (through `awardXp`), the global check-ins log, and the tracker
list. -/
structure AppState where
  ledger : LedgerState
  checkinsLog : List CheckinsEntry
  trackers : List Tracker
deriving DecidableEq, Repr

/-- Embeds the `mockCheckinsLog` update of `handleCheckIn`
(src/index.tsx lines 2463-2468): increment today's first entry or push a
fresh one with count 1. -/
def updateCheckinsLog (today : String) : List CheckinsEntry → List CheckinsEntry
  | [] => [⟨today, 1⟩]
  | e :: rest =>
    if e.date = today then ⟨e.date, e.count + 1⟩ :: rest
    else e :: updateCheckinsLog today rest

/-- Embeds the proof-value selection of `handleCheckIn` (src/index.tsx
lines 2450-2453): the screenshot preview or the link input depending on
the check-in kind. -/
def checkInProofValue (ptype : String) (screenshotPreview linkInput : Option String) :
    Option String :=
  if ptype = "screenshot" then screenshotPreview
  else if ptype = "link" then linkInput
  else none

/-- The only guard in `handleCheckIn` (src/index.tsx lines 2455-2458): a
`screenshot` / `link` check-in with a JS-falsy proof value (absent or the
empty string) is rejected with an alert and no state change. -/
def checkInMissingProof (ptype : String) (screenshotPreview linkInput : Option String) :
    Prop :=
  (ptype = "screenshot" ∨ ptype = "link") ∧
    (checkInProofValue ptype screenshotPreview linkInput = none ∨
     checkInProofValue ptype screenshotPreview linkInput = some "")

instance (ptype : String) (sp li : Option String) :
    Decidable (checkInMissingProof ptype sp li) := by
  unfold checkInMissingProof; infer_instance

/-- Embeds `handleCheckIn` (src/index.tsx lines 2449-2496).  The proof
inputs of the page are passed explicitly; the only guard in the source is
the missing-proof alert (`checkInMissingProof`).  There is no guard
against an existing log entry for today.  On success: `awardXp(xp)`, the
global check-ins log update, a `completed` log entry prepended,
`currentStreak + 1` and `longestStreak` raised to match. -/
def handleCheckIn (today trackerId ptype : String)
    (screenshotPreview linkInput comment : Option String) (xp : Int)
    (s : AppState) : AppState :=
  let proofValue := checkInProofValue ptype screenshotPreview linkInput
  if checkInMissingProof ptype screenshotPreview linkInput then
    s
  else
    let commentVal : Option String :=
      match comment with
      | some c => if c = "" then none else some c
      | none => none
    let newLog : CheckInLog := ⟨today, "completed", ⟨ptype, proofValue, commentVal⟩⟩
    { ledger := awardXp today xp s.ledger
      checkinsLog := updateCheckinsLog today s.checkinsLog
      trackers := s.trackers.map (fun t =>
        if t.id = trackerId then
          let newStreak := t.currentStreak + 1
          { t with
              logs := newLog :: t.logs
              currentStreak := newStreak
              longestStreak := max t.longestStreak newStreak }
        else t) }

/-- Embeds `handleUseStreakFreeze` (src/index.tsx lines 2498-2516): for
the tracker with the given id, when `streakFreezes.remaining > 0`, a
`frozen` log entry for today is prepended and `remaining` decremented;
otherwise the tracker is left as is.  The source checks nothing else — in
particular it never looks at today's existing log entries, and it
signals no failure. -/
def handleUseStreakFreeze (today trackerId : String) (s : AppState) : AppState :=
  { s with
      trackers := s.trackers.map (fun t =>
        if t.id = trackerId ∧ t.streakFreezes.remaining > 0 then
          { t with
              logs := ⟨today, "frozen", ⟨"frozen", none, none⟩⟩ :: t.logs
              streakFreezes := ⟨t.streakFreezes.remaining - 1, t.streakFreezes.total⟩ }
        else t) }

/-- Embeds the render-layer lookup `tracker.logs.find(log => log.date ===
getTodaysDateString())` (src/index.tsx line 2554), the only place the
page checks for an existing same-day entry. -/
def todaysLog (today : String) (t : Tracker) : Option CheckInLog :=
  t.logs.find? (fun l => l.date == today)

/-- Embeds the streak shown on read, `tracker.currentStreak || 0`
(src/index.tsx line 2570): the stored counter, with no recomputation
from the log dates. -/
def displayedStreak (t : Tracker) : Nat := t.currentStreak

/-! Helper lemmas about the leveling ledger. -/

theorem awardXp_xp_eq (today : String) (amount : Int) (s : LedgerState) :
    (awardXp today amount s).profile.xp = s.profile.xp + amount := by
  unfold awardXp
  split
  · simp only [*]; omega
  · rfl

theorem awardXp_level_eq_or_succ (today : String) (amount : Int) (s : LedgerState) :
    (awardXp today amount s).profile.level = s.profile.level ∨
    (awardXp today amount s).profile.level = s.profile.level + 1 := by
  unfold awardXp
  split
  · exact Or.inl rfl
  · cases h : LEVEL_THRESHOLDS (s.profile.level + 1) with
    | none => simp [h]
    | some t =>
      simp only [h]
      split
      · exact Or.inr rfl
      · exact Or.inl rfl

theorem awardXp_level_le (today : String) (amount : Int) (s : LedgerState) :
    s.profile.level ≤ (awardXp today amount s).profile.level := by
  rcases awardXp_level_eq_or_succ today amount s with h | h <;> omega

theorem updateXpLog_length_le (today : String) (x : Int) (l : List XpEntry) :
    (updateXpLog today x l).length ≤ l.length + 1 := by
  induction l with
  | nil => simp [updateXpLog]
  | cons e rest ih =>
    unfold updateXpLog
    split <;> simp <;> omega

theorem updateXpLog_of_fresh_date (today : String) (x : Int) (l : List XpEntry)
    (h : ∀ e ∈ l, e.date ≠ today) :
    updateXpLog today x l = l ++ [⟨today, x⟩] := by
  induction l with
  | nil => rfl
  | cons e rest ih =>
    unfold updateXpLog
    rw [if_neg (h e (by simp))]
    simp only [List.cons_append, List.cons.injEq, true_and]
    exact ih (fun e' he' => h e' (by simp [he']))

/-- C1: after `awardExperience(amount)` with `amount >= 0` the claim says
`level` equals the largest level whose threshold is at or below the new
experience, so that one call can cross several levels — e.g. awarding
300 XP at level 1 with 0 XP should reach level 3.  The code performs a
single level-up step: the same call leaves the user at level 2, not at
`largestLevelFor 300 = 3`. -/
theorem awardXp_not_largest_level_cex :
    (awardXp "2024-06-20" 300 ⟨⟨0, 1, []⟩, []⟩).profile.level = 2 ∧
    largestLevelFor (awardXp "2024-06-20" 300 ⟨⟨0, 1, []⟩, []⟩).profile.xp = 3 ∧
    (awardXp "2024-06-20" 300 ⟨⟨0, 1, []⟩, []⟩).profile.level ≠
      largestLevelFor (awardXp "2024-06-20" 300 ⟨⟨0, 1, []⟩, []⟩).profile.xp := by
  decide

/-- C1 (amended): after a call to `awardXp` with `amount >= 0` and a
positive current level, the level rises by at most one step: for a
positive amount it becomes `level + 1` exactly when the threshold table
has an entry for `level + 1` that the new experience meets, and is
unchanged otherwise; `amount = 0` is a no-op.  Crossing several levels
needs several calls. -/
theorem awardXp_single_level_step (today : String) (amount : Int) (s : LedgerState)
    (hamt : 0 ≤ amount) (hlvl : 1 ≤ s.profile.level) :
    s.profile.level ≤ (awardXp today amount s).profile.level ∧
    (awardXp today amount s).profile.level ≤ s.profile.level + 1 ∧
    (amount = 0 → awardXp today amount s = s) ∧
    (amount ≠ 0 →
      (awardXp today amount s).profile.level =
        (match LEVEL_THRESHOLDS (s.profile.level + 1) with
         | some t => if t ≤ s.profile.xp + amount then s.profile.level + 1 else s.profile.level
         | none => s.profile.level)) := by
  refine ⟨awardXp_level_le today amount s, ?_, ?_, ?_⟩
  · rcases awardXp_level_eq_or_succ today amount s with h | h <;> omega
  · intro h0
    unfold awardXp
    rw [if_pos h0]
  · intro hne
    have hth : ∀ t : Int, LEVEL_THRESHOLDS (s.profile.level + 1) = some t → t ≠ 0 := by
      intro t ht
      rcases hL : s.profile.level with _ | _ | _ | _ | _ | L <;>
        rw [hL] at ht <;> simp [LEVEL_THRESHOLDS] at ht <;> omega
    unfold awardXp
    rw [if_neg hne]
    cases h : LEVEL_THRESHOLDS (s.profile.level + 1) with
    | none => simp [h]
    | some t =>
      have ht0 := hth t h
      simp only [h, ht0, ne_eq, not_false_eq_true, true_and]

/-- A concrete run of the amended C1 statement: awarding 300 XP at level
1 with 0 XP meets the level-2 threshold and lands on level 2. -/
theorem awardXp_single_level_step_witness :
    (0 : Int) ≤ 300 ∧
    (awardXp "2024-06-20" 300 ⟨⟨0, 1, []⟩, []⟩).profile.level = 2 := by
  have h := awardXp_single_level_step "2024-06-20" 300 ⟨⟨0, 1, []⟩, []⟩
    (by decide) (by decide)
  refine ⟨by decide, ?_⟩
  have := h.2.2.2 (by decide)
  rw [this]
  decide

/-- C8: two sequential `awardXp` calls with amounts `a1, a2 >= 0` add
exactly `a1 + a2` to the experience total, and the level never
decreases across the two calls. -/
theorem awardXp_sequential_additive (d1 d2 : String) (a1 a2 : Int) (s : LedgerState)
    (h1 : 0 ≤ a1) (h2 : 0 ≤ a2) :
    (awardXp d2 a2 (awardXp d1 a1 s)).profile.xp = s.profile.xp + a1 + a2 ∧
    s.profile.level ≤ (awardXp d2 a2 (awardXp d1 a1 s)).profile.level := by
  constructor
  · rw [awardXp_xp_eq, awardXp_xp_eq]
  · exact le_trans (awardXp_level_le d1 a1 s) (awardXp_level_le d2 a2 _)

/-- A concrete run of C8: 85 XP, then 10, then 20, totals 115, and the
level does not drop. -/
theorem awardXp_sequential_additive_witness :
    (0 : Int) ≤ 10 ∧ (0 : Int) ≤ 20 ∧
    ((awardXp "2024-06-21" 20 (awardXp "2024-06-20" 10 ⟨⟨85, 1, []⟩, []⟩)).profile.xp
        = 85 + 10 + 20 ∧
      (1 : Nat) ≤ (awardXp "2024-06-21" 20
        (awardXp "2024-06-20" 10 ⟨⟨85, 1, []⟩, []⟩)).profile.level) :=
  ⟨by decide, by decide,
    awardXp_sequential_additive "2024-06-20" "2024-06-21" 10 20 ⟨⟨85, 1, []⟩, []⟩
      (by decide) (by decide)⟩

/-- C9: the claim says a negative amount is rejected or clamped so that
experience never decreases.  The code adds the amount unconditionally:
awarding -20 at 50 XP leaves 30 XP, a strict decrease. -/
theorem awardXp_negative_decreases_cex :
    (awardXp "2024-06-20" (-20) ⟨⟨50, 1, []⟩, []⟩).profile.xp = 30 ∧
    (awardXp "2024-06-20" (-20) ⟨⟨50, 1, []⟩, []⟩).profile.xp <
      (⟨⟨50, 1, []⟩, []⟩ : LedgerState).profile.xp := by
  decide

/-- C9 (amended): `awardXp` neither rejects nor clamps any amount: for
every integer amount, the resulting experience is exactly the previous
experience plus the amount, so a negative amount strictly decreases
experience.  The only guarded input is `amount = 0`, a no-op. -/
theorem awardXp_adds_any_amount (today : String) (amount : Int) (s : LedgerState) :
    (awardXp today amount s).profile.xp = s.profile.xp + amount :=
  awardXp_xp_eq today amount s

/-- C10: `awardXp` keeps the XP log at 60 entries at most: starting at or
under the cap it stays at or under the cap, and a call on a fresh date
with the log full drops the oldest entry while appending today's. -/
theorem awardXp_zero_noop (today : String) (s : LedgerState) :
    awardXp today 0 s = s := by
  unfold awardXp
  rw [if_pos rfl]

theorem awardXp_xpLog_eq (today : String) (amount : Int) (s : LedgerState)
    (hne : amount ≠ 0) :
    (awardXp today amount s).xpLog =
      if (updateXpLog today (s.profile.xp + amount) s.xpLog).length > 60
      then (updateXpLog today (s.profile.xp + amount) s.xpLog).drop 1
      else updateXpLog today (s.profile.xp + amount) s.xpLog := by
  unfold awardXp
  rw [if_neg hne]

theorem awardXp_xpLog_capped (today : String) (amount : Int) (s : LedgerState)
    (h : s.xpLog.length ≤ 60) :
    (awardXp today amount s).xpLog.length ≤ 60 ∧
    (amount ≠ 0 → s.xpLog.length = 60 → (∀ e ∈ s.xpLog, e.date ≠ today) →
      (awardXp today amount s).xpLog =
        s.xpLog.drop 1 ++ [⟨today, s.profile.xp + amount⟩]) := by
  constructor
  · by_cases h0 : amount = 0
    · rw [h0, awardXp_zero_noop]
      exact h
    · rw [awardXp_xpLog_eq today amount s h0]
      have hlen := updateXpLog_length_le today (s.profile.xp + amount) s.xpLog
      split
      · simp only [List.length_drop]
        omega
      · omega
  · intro hne hfull hfresh
    rw [awardXp_xpLog_eq today amount s hne]
    have heq := updateXpLog_of_fresh_date today (s.profile.xp + amount) s.xpLog hfresh
    rw [heq]
    rw [if_pos (by simp; omega)]
    rcases hxl : s.xpLog with _ | ⟨e, rest⟩
    · rw [hxl] at hfull
      simp at hfull
    · simp

/-- A concrete run of C10 with a full 60-entry log and a fresh date: the
oldest entry is dropped and today's appended, leaving 60 entries. -/
theorem awardXp_xpLog_capped_witness :
    (List.replicate 60 (⟨"2024-05-01", 7⟩ : XpEntry)).length ≤ 60 ∧
    (awardXp "2024-06-20" 5 ⟨⟨0, 1, []⟩, List.replicate 60 ⟨"2024-05-01", 7⟩⟩).xpLog =
      (List.replicate 60 (⟨"2024-05-01", 7⟩ : XpEntry)).drop 1 ++ [⟨"2024-06-20", 5⟩] := by
  have h := awardXp_xpLog_capped "2024-06-20" 5
    ⟨⟨0, 1, []⟩, List.replicate 60 ⟨"2024-05-01", 7⟩⟩ (by decide)
  refine ⟨by decide, ?_⟩
  rw [h.2 (by decide) (by decide) (by decide)]
  decide

/-! Daily Tracker claims. -/

theorem handleCheckIn_trackers_eq (today trackerId ptype : String)
    (sp li c : Option String) (xp : Int) (s : AppState)
    (hok : ¬ checkInMissingProof ptype sp li) :
    (handleCheckIn today trackerId ptype sp li c xp s).trackers =
      s.trackers.map (fun t =>
        if t.id = trackerId then
          { t with
              logs := (⟨today, "completed",
                ⟨ptype, checkInProofValue ptype sp li,
                  match c with
                  | some cc => if cc = "" then none else some cc
                  | none => none⟩⟩ : CheckInLog) :: t.logs
              currentStreak := t.currentStreak + 1
              longestStreak := max t.longestStreak (t.currentStreak + 1) }
        else t) := by
  simp only [handleCheckIn]
  rw [if_neg hok]

/-- C2: the claim says a second `checkIn` on the same date for the same
habit must be rejected with a validation error and no state change.
`handleCheckIn` carries no same-day guard (its only check is the
missing-proof alert; the duplicate-day gate lives solely in the render
layer's `todaysLog` lookup), so a second call on the same date appends a
second log entry for that date, raises `currentStreak` to 2 and counts
the check-in twice in the global daily log. -/
theorem handleCheckIn_double_counts :
    (handleCheckIn "2024-06-20" "h1" "unverified" none none none 0
      (handleCheckIn "2024-06-20" "h1" "unverified" none none none 0
        ⟨⟨⟨0, 1, []⟩, []⟩, [], [⟨"h1", "Run", 0, 0, ⟨1, 1⟩, []⟩]⟩)).trackers =
      [⟨"h1", "Run", 2, 2, ⟨1, 1⟩,
        [⟨"2024-06-20", "completed", ⟨"unverified", none, none⟩⟩,
         ⟨"2024-06-20", "completed", ⟨"unverified", none, none⟩⟩]⟩] ∧
    (handleCheckIn "2024-06-20" "h1" "unverified" none none none 0
      (handleCheckIn "2024-06-20" "h1" "unverified" none none none 0
        ⟨⟨⟨0, 1, []⟩, []⟩, [], [⟨"h1", "Run", 0, 0, ⟨1, 1⟩, []⟩]⟩)).checkinsLog =
      [⟨"2024-06-20", 2⟩] := by
  decide

/-- C4: the claim says `useStreakFreeze` is rejected as a no-op whenever
the habit already has a log entry for today.  `handleUseStreakFreeze`
checks only `streakFreezes.remaining > 0` (the today-entry gate lives
solely in the render layer's disabled button): on a habit that already
has a completed entry for today and one token left, the call still
prepends a second (frozen) entry for today and burns the token. -/
theorem handleUseStreakFreeze_ignores_todays_log :
    todaysLog "2024-06-20"
      ⟨"h1", "Run", 3, 5, ⟨1, 1⟩,
        [⟨"2024-06-20", "completed", ⟨"unverified", none, none⟩⟩]⟩ ≠ none ∧
    (handleUseStreakFreeze "2024-06-20" "h1"
      ⟨⟨⟨0, 1, []⟩, []⟩, [],
       [⟨"h1", "Run", 3, 5, ⟨1, 1⟩,
         [⟨"2024-06-20", "completed", ⟨"unverified", none, none⟩⟩]⟩]⟩).trackers =
      [⟨"h1", "Run", 3, 5, ⟨0, 1⟩,
        [⟨"2024-06-20", "frozen", ⟨"frozen", none, none⟩⟩,
         ⟨"2024-06-20", "completed", ⟨"unverified", none, none⟩⟩]⟩] := by
  decide

/-- C5: the claim says a check-in after a skipped day yields
`currentStreak` 1, the stale streak having been reset to 0.  No reset
exists anywhere in the source: a habit whose latest log is 2024-06-01
with stored streak 5, checked in on 2024-06-10, ends at streak 6, not 1. -/
theorem handleCheckIn_stale_streak_cex :
    (handleCheckIn "2024-06-10" "h1" "unverified" none none none 0
      ⟨⟨⟨0, 1, []⟩, []⟩, [],
       [⟨"h1", "Run", 5, 15, ⟨1, 1⟩,
         [⟨"2024-06-01", "completed", ⟨"unverified", none, none⟩⟩]⟩]⟩).trackers.map
        Tracker.currentStreak = [6] ∧ (6 : Nat) ≠ 1 := by
  decide

/-- C5 (amended): `currentStreak` is never reset for a missed day: no
operation or read inspects the gap between today and the latest log
date.  A successful check-in always stores the previous streak plus one,
whatever the log dates are, and the rendered streak is the stored
counter unchanged. -/
theorem handleCheckIn_streak_ignores_gap (today trackerId ptype : String)
    (sp li c : Option String) (xp : Int) (s : AppState) (t : Tracker)
    (hmem : t ∈ s.trackers) (hid : t.id = trackerId)
    (hok : ¬ checkInMissingProof ptype sp li) :
    displayedStreak t = t.currentStreak ∧
    ∃ t' ∈ (handleCheckIn today trackerId ptype sp li c xp s).trackers,
      t'.id = trackerId ∧ t'.currentStreak = t.currentStreak + 1 := by
  refine ⟨rfl, ?_⟩
  rw [handleCheckIn_trackers_eq today trackerId ptype sp li c xp s hok]
  refine ⟨_, List.mem_map_of_mem _ hmem, ?_, ?_⟩
  · simp [hid]
  · simp [hid]

/-- A concrete run of the amended C5 statement: a habit with stored
streak 5 and latest log nine days old, checked in today, lands on
streak 6. -/
theorem handleCheckIn_streak_ignores_gap_witness :
    (⟨"h1", "Run", 5, 15, ⟨1, 1⟩,
        [⟨"2024-06-01", "completed", ⟨"unverified", none, none⟩⟩]⟩ : Tracker) ∈
      (⟨⟨⟨0, 1, []⟩, []⟩, [],
        [⟨"h1", "Run", 5, 15, ⟨1, 1⟩,
          [⟨"2024-06-01", "completed", ⟨"unverified", none, none⟩⟩]⟩]⟩ : AppState).trackers ∧
    ∃ t' ∈ (handleCheckIn "2024-06-10" "h1" "unverified" none none none 0
        ⟨⟨⟨0, 1, []⟩, []⟩, [],
         [⟨"h1", "Run", 5, 15, ⟨1, 1⟩,
           [⟨"2024-06-01", "completed", ⟨"unverified", none, none⟩⟩]⟩]⟩).trackers,
      t'.id = "h1" ∧ t'.currentStreak = 5 + 1 := by
  refine ⟨by decide, ?_⟩
  exact (handleCheckIn_streak_ignores_gap "2024-06-10" "h1" "unverified"
    none none none 0
    ⟨⟨⟨0, 1, []⟩, []⟩, [],
      [⟨"h1", "Run", 5, 15, ⟨1, 1⟩,
        [⟨"2024-06-01", "completed", ⟨"unverified", none, none⟩⟩]⟩]⟩
    ⟨"h1", "Run", 5, 15, ⟨1, 1⟩,
      [⟨"2024-06-01", "completed", ⟨"unverified", none, none⟩⟩]⟩
    (by decide) (by decide) (by decide)).2

/-! Progress Projector claim. -/

/-- C3: for a Learning goal the Progress Projector returns
round-half-up of `100 * (verifiedCount + halfCount/2) / N` together with
the exact text `"<verifiedCount> Verified, <halfCount> Self-Completed /
<N> Total Modules"`, where `verifiedCount` counts `verified` modules and
`halfCount` the completed-but-unverified ones; with zero modules it
returns `(0, "No modules")`. -/
theorem calculateOverallProgressDisplay_learning (g : Goal) (ms : List Module)
    (hty : g.gtype = "Learning") (hm : g.modules = some ms) :
    (ms = [] → calculateOverallProgressDisplay (some g) = (0, "No modules")) ∧
    (ms ≠ [] →
      calculateOverallProgressDisplay (some g) =
        (jsRound (100 * (((ms.filter (fun m => m.verified)).length : ℚ) +
            ((ms.filter (fun m => m.status == "completed" && !m.verified)).length : ℚ) / 2)
          / (ms.length : ℚ)),
         toString (ms.filter (fun m => m.verified)).length ++ " Verified, "
           ++ toString (ms.filter (fun m => m.status == "completed" && !m.verified)).length
           ++ " Self-Completed / " ++ toString ms.length ++ " Total Modules")) := by
  constructor
  · intro hnil
    subst hnil
    simp [calculateOverallProgressDisplay, hty, hm]
  · intro hne
    have hlen : ms.length ≠ 0 := by simpa using hne
    simp only [calculateOverallProgressDisplay, hty, hm, Option.isSome_some, and_true,
      if_true, Option.getD_some, hlen, if_false, Prod.mk.injEq]
    congr 1
    ring

/-- A concrete run of C3: modules `[verified, completed-unverified,
pending]` give 50 percent and the exact two-count text. -/
theorem calculateOverallProgressDisplay_learning_witness :
    calculateOverallProgressDisplay (some ⟨"g1", "Learn Python", "Learning",
      some [⟨"m1", "A", "completed", true, "user"⟩,
            ⟨"m2", "B", "completed", false, "user"⟩,
            ⟨"m3", "C", "pending", false, "user"⟩], none, none⟩) =
      (50, "1 Verified, 1 Self-Completed / 3 Total Modules") := by
  have h := (calculateOverallProgressDisplay_learning
    ⟨"g1", "Learn Python", "Learning",
      some [⟨"m1", "A", "completed", true, "user"⟩,
            ⟨"m2", "B", "completed", false, "user"⟩,
            ⟨"m3", "C", "pending", false, "user"⟩], none, none⟩
    [⟨"m1", "A", "completed", true, "user"⟩,
     ⟨"m2", "B", "completed", false, "user"⟩,
     ⟨"m3", "C", "pending", false, "user"⟩] rfl rfl).2 (by decide)
  rw [h]
  have e1 : (List.filter (fun m => m.verified)
      [(⟨"m1", "A", "completed", true, "user"⟩ : Module),
       ⟨"m2", "B", "completed", false, "user"⟩,
       ⟨"m3", "C", "pending", false, "user"⟩]).length = 1 := rfl
  have e2 : (List.filter (fun m => m.status == "completed" && !m.verified)
      [(⟨"m1", "A", "completed", true, "user"⟩ : Module),
       ⟨"m2", "B", "completed", false, "user"⟩,
       ⟨"m3", "C", "pending", false, "user"⟩]).length = 1 := rfl
  have e3 : ([(⟨"m1", "A", "completed", true, "user"⟩ : Module),
       ⟨"m2", "B", "completed", false, "user"⟩,
       ⟨"m3", "C", "pending", false, "user"⟩]).length = 3 := rfl
  simp only [e1, e2, e3, Prod.mk.injEq]
  refine ⟨?_, by decide⟩
  norm_num [jsRound]

/-! Quest Response Parser claim. -/

/-- C6: the quest parsing step is total and returns, for any raw text
and goal list: when all three label extractions succeed, the captured
values with surrounding whitespace trimmed; otherwise the fallback
record with the generic title, the raw text as description, and as
related goal the exact title of a caller-supplied goal occurring
case-insensitively in the text, or `"General"` when no title occurs. -/
theorem parseQuestResponse_spec (text : String) (userGoals : List Goal) :
    (∀ t d g, questLabelMatch "Quest Title: " text = some t →
        questLabelMatch "Description: " text = some d →
        questLabelMatch "Related Goal: " text = some g →
        parseQuestResponse text userGoals =
          ⟨String.mk (trimChars t), String.mk (trimChars d), String.mk (trimChars g)⟩) ∧
    ((questLabelMatch "Quest Title: " text = none ∨
        questLabelMatch "Description: " text = none ∨
        questLabelMatch "Related Goal: " text = none) →
      (parseQuestResponse text userGoals).title = "Weekly Quest Suggestion" ∧
      (parseQuestResponse text userGoals).description = text ∧
      ((∃ g ∈ userGoals, (parseQuestResponse text userGoals).relatedGoal = g.title ∧
          jsIncludes (lowerChars text.data) (lowerChars g.title.data) = true) ∨
        ((parseQuestResponse text userGoals).relatedGoal = "General" ∧
          ∀ g ∈ userGoals,
            jsIncludes (lowerChars text.data) (lowerChars g.title.data) = false))) := by
  constructor
  · intro t d g h1 h2 h3
    simp [parseQuestResponse, h1, h2, h3]
  · intro h
    have hfb : parseQuestResponse text userGoals =
        ⟨"Weekly Quest Suggestion", text,
         match userGoals.find?
             (fun g => jsIncludes (lowerChars text.data) (lowerChars g.title.data)) with
         | some g => g.title
         | none => "General"⟩ := by
      rcases ht : questLabelMatch "Quest Title: " text with _ | t <;>
        rcases hd : questLabelMatch "Description: " text with _ | d <;>
        rcases hg : questLabelMatch "Related Goal: " text with _ | g <;>
        simp_all [parseQuestResponse]
    rw [hfb]
    refine ⟨rfl, rfl, ?_⟩
    rcases hfind : userGoals.find?
        (fun g => jsIncludes (lowerChars text.data) (lowerChars g.title.data)) with _ | g
    · refine Or.inr ⟨by simp [hfind], ?_⟩
      intro g hg
      have := List.find?_eq_none.mp hfind g hg
      simpa using this
    · refine Or.inl ⟨g, List.mem_of_find?_eq_some hfind, by simp [hfind], ?_⟩
      simpa using List.find?_some hfind

/-- A concrete run of C6, both branches: the spec's structured example
parses into its three values, and the unstructured example falls back to
the generic title, the raw text, and the mentioned goal's exact title. -/
theorem parseQuestResponse_spec_witness :
    parseQuestResponse "Quest Title: A\nDescription: B\nRelated Goal: C" [] =
      ⟨"A", "B", "C"⟩ ∧
    parseQuestResponse "random unstructured text mentioning Learn Python"
        [⟨"g1", "Learn Python", "Learning", none, none, none⟩] =
      ⟨"Weekly Quest Suggestion", "random unstructured text mentioning Learn Python",
       "Learn Python"⟩ := by
  constructor
  · have h := (parseQuestResponse_spec "Quest Title: A\nDescription: B\nRelated Goal: C" []).1
      ['A'] ['B'] ['C'] (by decide) (by decide) (by decide)
    rw [h]
    decide
  · have h := (parseQuestResponse_spec "random unstructured text mentioning Learn Python"
      [⟨"g1", "Learn Python", "Learning", none, none, none⟩]).2 (by decide)
    rcases h.2.2 with ⟨g, hmem, hrel, _⟩ | ⟨hrel, hall⟩
    · have hg : g = ⟨"g1", "Learn Python", "Learning", none, none, none⟩ := by
        simpa using hmem
      have heta : parseQuestResponse "random unstructured text mentioning Learn Python"
          [⟨"g1", "Learn Python", "Learning", none, none, none⟩] =
          ⟨(parseQuestResponse "random unstructured text mentioning Learn Python"
              [⟨"g1", "Learn Python", "Learning", none, none, none⟩]).title,
           (parseQuestResponse "random unstructured text mentioning Learn Python"
              [⟨"g1", "Learn Python", "Learning", none, none, none⟩]).description,
           (parseQuestResponse "random unstructured text mentioning Learn Python"
              [⟨"g1", "Learn Python", "Learning", none, none, none⟩]).relatedGoal⟩ := rfl
      rw [heta, h.1, h.2.1, hrel, hg]
    · exact absurd (hall ⟨"g1", "Learn Python", "Learning", none, none, none⟩ (by simp))
        (by decide)

/-! Module state-machine claim. -/

/-- What one module keeps under either handler: a completed module never
returns to pending. -/
def ModuleKeepsCompleted (m m' : Module) : Prop :=
  m.status = "completed" → m'.status = "completed"

theorem forall₂_keepsCompleted_trans {a b c : List Module}
    (h1 : List.Forall₂ ModuleKeepsCompleted a b)
    (h2 : List.Forall₂ ModuleKeepsCompleted b c) :
    List.Forall₂ ModuleKeepsCompleted a c := by
  induction h1 generalizing c with
  | nil => cases h2; exact List.Forall₂.nil
  | cons hab htl ih =>
    cases h2 with
    | cons hbc htl2 => exact List.Forall₂.cons (fun h => hbc (hab h)) (ih htl2)

theorem forall₂_map_of_pointwise (f : Module → Module) (ms : List Module)
    (h : ∀ m ∈ ms, ModuleKeepsCompleted m (f m)) :
    List.Forall₂ ModuleKeepsCompleted ms (ms.map f) := by
  rw [List.forall₂_iff_get]
  refine ⟨(List.length_map ms f).symm, ?_⟩
  intro i h1 h2
  have hg : (ms.map f).get ⟨i, h2⟩ = f (ms.get ⟨i, h1⟩) := by simp
  rw [hg]
  exact h _ (ms.get_mem _ _)

theorem applyModuleOp_step (ms : List Module) (op : ModuleOp)
    (hinv : ∀ m ∈ ms, m.verified = true → m.status = "completed") :
    (∀ m ∈ applyModuleOp ms op, m.verified = true → m.status = "completed") ∧
    List.Forall₂ ModuleKeepsCompleted ms (applyModuleOp ms op) := by
  have upd_general :
      ∀ (b : Bool) (mid : String),
        (∀ m ∈ ms.map (fun m =>
            if m.id = mid then { m with status := "completed", verified := b } else m),
          m.verified = true → m.status = "completed") ∧
        List.Forall₂ ModuleKeepsCompleted ms (ms.map (fun m =>
          if m.id = mid then { m with status := "completed", verified := b } else m)) := by
    intro b mid
    constructor
    · intro m' hm'
      rcases List.mem_map.mp hm' with ⟨m, hm, rfl⟩
      by_cases h : m.id = mid
      · simp [h]
      · simp only [h, if_false]
        exact hinv m hm
    · apply forall₂_map_of_pointwise
      intro m hm
      by_cases h : m.id = mid
      · intro _
        simp [h]
      · simp only [h, if_false]
        exact fun hc => hc
  cases op with
  | selfComplete mid => exact upd_general false mid
  | verify mid => exact upd_general true mid

theorem runModuleOps_pres (ops : List ModuleOp) (ms : List Module)
    (hinv : ∀ m ∈ ms, m.verified = true → m.status = "completed") :
    (∀ m ∈ runModuleOps ms ops, m.verified = true → m.status = "completed") ∧
    List.Forall₂ ModuleKeepsCompleted ms (runModuleOps ms ops) := by
  induction ops generalizing ms with
  | nil => exact ⟨hinv, List.forall₂_same.mpr (fun m _ => fun hc => hc)⟩
  | cons op ops ih =>
    have step := applyModuleOp_step ms op hinv
    have tail := ih (applyModuleOp ms op) step.1
    exact ⟨tail.1, forall₂_keepsCompleted_trans step.2 tail.2⟩

/-- C7: the claim says a module with `verified == true` never later has
`verified == false` through the normal operations.  The handlers fire
from the modal's delayed callbacks without re-checking the render-layer
offer: on a completed-unverified module — for which re-verification is
offered, so both a verification and a self-completion can be initiated
before either lands — a verification landing first marks it verified,
and the self-completion landing afterwards unconditionally clears the
mark again. -/
theorem moduleOps_unverify_cex :
    moduleActionOffered ⟨"m1", "A", "completed", false, "user"⟩ = true ∧
    (runModuleOps [⟨"m1", "A", "completed", false, "user"⟩] [.verify "m1"]).map
        Module.verified = [true] ∧
    (runModuleOps [⟨"m1", "A", "completed", false, "user"⟩]
        [.verify "m1", .selfComplete "m1"]).map Module.verified = [false] := by
  decide

/-- C7 (amended): every sequence of the module-updating operations
preserves that `verified == true` implies `status == Completed`, and no
module ever transitions from status `Completed` back to `Pending`; a
verified module may however lose its `verified` mark again, when a
self-completion initiated while the action was still offered lands
after a verification. -/
theorem moduleOps_preserve_completed (ops : List ModuleOp) (ms : List Module)
    (hinv : ∀ m ∈ ms, m.verified = true → m.status = "completed") :
    (runModuleOps ms ops).length = ms.length ∧
    (∀ m ∈ runModuleOps ms ops, m.verified = true → m.status = "completed") ∧
    (∀ i (h1 : i < ms.length) (h2 : i < (runModuleOps ms ops).length),
      (ms.get ⟨i, h1⟩).status = "completed" →
        ((runModuleOps ms ops).get ⟨i, h2⟩).status = "completed") := by
  have h := runModuleOps_pres ops ms hinv
  have hget := List.forall₂_iff_get.mp h.2
  exact ⟨hget.1.symm, h.1, hget.2⟩

/-- A concrete run of the amended C7 statement: self-complete a verified
module and verify a pending one; verified-implies-completed still holds
afterwards. -/
theorem moduleOps_preserve_completed_witness :
    (∀ m ∈ [(⟨"m1", "A", "completed", true, "user"⟩ : Module),
        ⟨"m2", "B", "pending", false, "user"⟩],
      m.verified = true → m.status = "completed") ∧
    (∀ m ∈ runModuleOps
        [⟨"m1", "A", "completed", true, "user"⟩, ⟨"m2", "B", "pending", false, "user"⟩]
        [.selfComplete "m1", .verify "m2"],
      m.verified = true → m.status = "completed") :=
  ⟨by decide,
   (moduleOps_preserve_completed [.selfComplete "m1", .verify "m2"]
      [⟨"m1", "A", "completed", true, "user"⟩, ⟨"m2", "B", "pending", false, "user"⟩]
      (by decide)).2.1⟩

end GoalMate
